import Mathlib

/-!
Verification development for the geofront repository.

The file shallowly embeds `geofront/backends/github.py` (the `request`
helper and the `GitHubOrganization` team backend) together with the
parts of `geofront/remote.py` that the repository's tests exercise
(`Remote`, `AuthorizedKeyList`); the latter module is not part of the
source tree, so those definitions are modelled from the specification.

Python-side effects are made explicit:
* HTTP traffic is a `World` value: a function from the request the code
  makes to the outcome the network produces (an I/O failure or a
  response with a declared content type and a body string);
* Python exceptions become the `PyError` sum, and fallible code returns
  `Except PyError _`;
* the process-wide logger configuration becomes the `debug` field of
  `World`;
* the remote authorized-keys file is a `List String` of its lines,
  threaded explicitly through every operation.
-/

namespace Geofront

/-- Parsed JSON values, the result of Python's `json.loads`.
Numbers are restricted to integers (no claim involves fractional
numbers); objects keep their fields in document order, as Python
dicts do. -/
inductive Json where
  | null
  | bool (b : Bool)
  | num (n : Int)
  | str (s : String)
  | arr (elems : List Json)
  | obj (fields : List (String × Json))

/-- The Python exceptions the embedded code can raise.  `ioError`
covers `OSError`/`IOError` and its `urllib` subclasses; the others are
the like-named Python exception classes.  `authenticationError` is
geofront's own `geofront.team.AuthenticationError`. -/
inductive PyError where
  | ioError
  | assertionError (msg : String)
  | valueError (msg : String)
  | keyError (key : String)
  | typeError (msg : String)
  | indexError (msg : String)
  | authenticationError (msg : String)
deriving DecidableEq, Repr

/-- The Python classes an `Identity.team_type` can be: the abstract
`geofront.team.Team` base class, the `GitHubOrganization` subclass
(the only concrete team in the repository), or some unrelated class. -/
inductive TeamType where
  | team
  | gitHubOrganization
  | other (name : String)
deriving DecidableEq, Repr

/-- Python's `issubclass` on the class hierarchy of the repository:
`GitHubOrganization` is the only proper subclass of `Team`. -/
def TeamType.isSubclassOf (t u : TeamType) : Bool :=
  t = u || (t = TeamType.gitHubOrganization && u = TeamType.team)

/-- `geofront.identity.Identity`: the (backend tag, principal name,
access token) triple built at the end of a successful login.  The name
and the token are arbitrary Python values fished out of parsed JSON,
so they are `Json` here. -/
structure Identity where
  team_type : TeamType
  identifier : Json
  access_token : Json

/-- Outcome of one network round trip made by the code: either
`urlopen` raised an `OSError`-family error, or a response arrived with
the given declared `Content-Type` header value and (already
charset-decoded) body text. -/
inductive FetchOutcome where
  | ioError
  | response (contentType : String) (body : String)

/-- Everything ambient the embedded code consults: the process-wide
logger configuration (`debug` is the value of
`logger.isEnabledFor(logging.DEBUG)`), the token endpoint (a POST of
the given form-encoded body), and the GitHub API (keyed by URL, the
bearer token used, and the HTTP method). -/
structure World where
  debug : Bool
  tokenEndpoint : String → FetchOutcome
  api : String → String → String → FetchOutcome

/-- First argument of the `request` helper: either a raw access token
value or an `Identity` (the helper unwraps the latter). -/
inductive TokenArg where
  | token (t : Json)
  | identity (i : Identity)

/-- `io.TextIOWrapper` around a response body: decoded text plus the
stream position. -/
structure TextIOWrapper where
  content : List Char
  pos : Nat

/-- `TextIOWrapper.read()`: return everything from the current
position to the end of the stream (and leave the stream exhausted;
the embedded code never reads twice, so only the returned text
matters). -/
def TextIOWrapper.readAll (w : TextIOWrapper) : String :=
  String.mk (w.content.drop w.pos)

/-! ## URL encoding and decoding (`werkzeug.urls`)

`url_encode` and `url_decode` model the werkzeug helpers the source
calls: percent-encoding over the UTF-8 bytes of each key and value
with `+` for space, fields joined by `&`, key split from value at the
first `=`. -/

/-- Characters werkzeug's quoting leaves as-is: ASCII letters, digits,
`_`, `.`, `-`. -/
def safeChar (c : Char) : Bool :=
  c.isAlpha || c.isDigit || c = '_' || c = '.' || c = '-'

/-- Uppercase hex digit character for a value below 16 (code points
48-57 are the digits, 65-70 the letters A-F). -/
def hexDigitChar (n : Nat) : Char :=
  if n < 10 then Char.ofNat (48 + n)
  else if n < 16 then Char.ofNat (55 + n)
  else '0'

/-- Numeric value of a hex digit character, upper or lower case,
read off the code point ranges. -/
def hexVal (c : Char) : Option Nat :=
  let n := c.toNat
  if 48 ≤ n ∧ n ≤ 57 then some (n - 48)
  else if 65 ≤ n ∧ n ≤ 70 then some (n - 55)
  else if 97 ≤ n ∧ n ≤ 102 then some (n - 87)
  else none

/-- UTF-8 encoding of one code point, as byte values. -/
def utf8Bytes (c : Char) : List Nat :=
  let n := c.toNat
  if n < 128 then [n]
  else if n < 2048 then [192 + n / 64, 128 + n % 64]
  else if n < 65536 then [224 + n / 4096, 128 + (n / 64) % 64, 128 + n % 64]
  else [240 + n / 262144, 128 + (n / 4096) % 64, 128 + (n / 64) % 64,
        128 + n % 64]

/-- Byte-wise UTF-8 decoding: the first component is the pending
multi-byte state — the accumulated high bits and the number of
continuation bytes still expected.  A truncated sequence at the end
of input is dropped; the embedded code only ever decodes what it
encoded. -/
def utf8DecodeAux : Option (Nat × Nat) → List Nat → List Char
  | none, [] => []
  | some _, [] => []
  | none, b :: bs =>
    if b < 128 then Char.ofNat b :: utf8DecodeAux none bs
    else if b < 224 then utf8DecodeAux (some (b - 192, 1)) bs
    else if b < 240 then utf8DecodeAux (some (b - 224, 2)) bs
    else utf8DecodeAux (some (b - 240, 3)) bs
  | some (acc, need), b :: bs =>
    if need = 1 then Char.ofNat (acc * 64 + (b - 128)) :: utf8DecodeAux none bs
    else utf8DecodeAux (some (acc * 64 + (b - 128), need - 1)) bs

/-- UTF-8 decoding of a byte-value list back to characters. -/
def utf8DecodeList (bs : List Nat) : List Char := utf8DecodeAux none bs

/-- Percent-encoding of one character: safe characters stand for
themselves, space becomes `+`, everything else becomes `%XX` per
UTF-8 byte. -/
def encodeChar (c : Char) : List Char :=
  if safeChar c then [c]
  else if c = ' ' then ['+']
  else (utf8Bytes c).flatMap
    (fun b => ['%', hexDigitChar (b / 16), hexDigitChar (b % 16)])

/-- Percent-encoding of a whole key or value. -/
def encodeField (l : List Char) : List Char := l.flatMap encodeChar

/-- Percent-decoding to byte values: `+` is a space byte, `%XX` is a
byte, any other character contributes its own UTF-8 bytes.  A
malformed percent escape ends the decode (the embedded code only ever
decodes well-formed encoder output). -/
def percentDecode : List Char → List Nat
  | [] => []
  | c :: rest =>
    if c = '+' then 32 :: percentDecode rest
    else if c = '%' then
      match rest with
      | h :: l :: rest2 =>
        match hexVal h, hexVal l with
        | some a, some b => (16 * a + b) :: percentDecode rest2
        | _, _ => []
      | _ => []
    else utf8Bytes c ++ percentDecode rest

/-- Percent-decoding of a whole key or value, back to text. -/
def decodeField (l : List Char) : String :=
  String.mk (utf8DecodeList (percentDecode l))

/-- Split at the first occurrence of `sep`: the part before it and,
when `sep` occurs, the part after it. -/
def splitFirst (sep : Char) : List Char → List Char × Option (List Char)
  | [] => ([], none)
  | c :: cs =>
    if c = sep then ([], some cs)
    else
      let r := splitFirst sep cs
      (c :: r.1, r.2)

/-- Split on every occurrence of `sep` (n separators give n+1 groups,
some possibly empty). -/
def splitOnChar (sep : Char) : List Char → List (List Char)
  | [] => [[]]
  | c :: cs =>
    match splitOnChar sep cs with
    | [] => [[]]
    | g :: gs => if c = sep then [] :: g :: gs else (c :: g) :: gs

/-- One `key=value` field of a query string. -/
def encodePairChars (p : String × String) : List Char :=
  encodeField p.1.toList ++ '=' :: encodeField p.2.toList

/-- Fields joined by `&`. -/
def urlEncodeChars : List (String × String) → List Char
  | [] => []
  | [p] => encodePairChars p
  | p :: q :: rest => encodePairChars p ++ '&' :: urlEncodeChars (q :: rest)

/-- `werkzeug.urls.url_encode`: form-encode an ordered list of
key-value pairs. -/
def url_encode (l : List (String × String)) : String :=
  String.mk (urlEncodeChars l)

/-- Decode one `key=value` field (no `=` means an empty value). -/
def decodePairChars (field : List Char) : String × String :=
  let r := splitFirst '=' field
  (decodeField r.1, decodeField (r.2.getD []))

/-- `werkzeug.urls.url_decode` (and `url_decode_stream` applied to a
whole body): split on `&`, drop empty fields, decode each field. -/
def url_decode (s : String) : List (String × String) :=
  ((splitOnChar '&' s.toList).filter (fun f => f ≠ [])).map decodePairChars

/-- The query-string part of a URL: everything after the first `?`,
when present. -/
def queryOf (url : String) : Option String :=
  ((splitFirst '?' url.toList).2).map String.mk

/-! ## JSON text parsing (Python's `json` module) -/

/-- Skip JSON whitespace. -/
def skipWs : List Char → List Char
  | [] => []
  | c :: cs =>
    if c = ' ' || c = '\t' || c = '\n' || c = '\r' then skipWs cs else c :: cs

/-- Parse the rest of a JSON string literal (the opening quote already
consumed), returning the string and the remaining input. -/
def jsonStringRest : List Char → List Char → Except String (String × List Char)
  | [], _ => .error "unterminated string"
  | '"' :: rest, acc => .ok (String.mk acc.reverse, rest)
  | '\\' :: e :: rest, acc =>
    if e = '"' then jsonStringRest rest ('"' :: acc)
    else if e = '\\' then jsonStringRest rest ('\\' :: acc)
    else if e = '/' then jsonStringRest rest ('/' :: acc)
    else if e = 'n' then jsonStringRest rest ('\n' :: acc)
    else if e = 't' then jsonStringRest rest ('\t' :: acc)
    else if e = 'r' then jsonStringRest rest ('\r' :: acc)
    else .error "unsupported escape"
  | '\\' :: [], _ => .error "unterminated escape"
  | c :: rest, acc => jsonStringRest rest (c :: acc)

/-- Parse a run of decimal digits into a number together with the rest
of the input. -/
def jsonDigits : List Char → Nat → Nat → (Nat × Nat × List Char)
  | [], acc, count => (acc, count, [])
  | c :: rest, acc, count =>
    if c.isDigit then jsonDigits rest (acc * 10 + (c.toNat - '0'.toNat)) (count + 1)
    else (acc, count, c :: rest)

/-- Parse a JSON number (integers only; a fraction or exponent is a
parse error in this model). -/
def jsonNumber (s : List Char) : Except String (Json × List Char) :=
  match s with
  | '-' :: rest =>
    match jsonDigits rest 0 0 with
    | (_, 0, _) => .error "invalid number"
    | (n, _ + 1, rest2) => .ok (Json.num (-(n : Int)), rest2)
  | _ =>
    match jsonDigits s 0 0 with
    | (_, 0, _) => .error "invalid number"
    | (n, _ + 1, rest2) => .ok (Json.num (n : Int), rest2)

mutual

/-- Recursive-descent JSON value parser, fuelled to make the recursion
structural. -/
def jsonValue : Nat → List Char → Except String (Json × List Char)
  | 0, _ => .error "too deeply nested"
  | fuel + 1, s =>
    match skipWs s with
    | 'n' :: 'u' :: 'l' :: 'l' :: rest => .ok (Json.null, rest)
    | 't' :: 'r' :: 'u' :: 'e' :: rest => .ok (Json.bool true, rest)
    | 'f' :: 'a' :: 'l' :: 's' :: 'e' :: rest => .ok (Json.bool false, rest)
    | '"' :: rest =>
      match jsonStringRest rest [] with
      | .error e => .error e
      | .ok (str, rest2) => .ok (Json.str str, rest2)
    | '[' :: rest =>
      match skipWs rest with
      | ']' :: rest2 => .ok (Json.arr [], rest2)
      | rest2 => jsonArrayItems fuel rest2 []
    | '\x7b' :: rest =>
      match skipWs rest with
      | '\x7d' :: rest2 => .ok (Json.obj [], rest2)
      | rest2 => jsonObjectItems fuel rest2 []
    | c :: rest =>
      if c.isDigit || c = '-' then jsonNumber (c :: rest)
      else .error "unexpected character"
    | [] => .error "unexpected end of input"

/-- Comma-separated array elements up to the closing bracket. -/
def jsonArrayItems : Nat → List Char → List Json → Except String (Json × List Char)
  | 0, _, _ => .error "too deeply nested"
  | fuel + 1, s, acc =>
    match jsonValue fuel s with
    | .error e => .error e
    | .ok (v, rest) =>
      match skipWs rest with
      | ',' :: rest2 => jsonArrayItems fuel rest2 (acc ++ [v])
      | ']' :: rest2 => .ok (Json.arr (acc ++ [v]), rest2)
      | _ => .error "expected comma or closing bracket"

/-- Comma-separated `"key": value` members up to the closing brace. -/
def jsonObjectItems : Nat → List Char → List (String × Json) →
    Except String (Json × List Char)
  | 0, _, _ => .error "too deeply nested"
  | fuel + 1, s, acc =>
    match skipWs s with
    | '"' :: rest =>
      match jsonStringRest rest [] with
      | .error e => .error e
      | .ok (key, rest2) =>
        match skipWs rest2 with
        | ':' :: rest3 =>
          match jsonValue fuel rest3 with
          | .error e => .error e
          | .ok (v, rest4) =>
            match skipWs rest4 with
            | ',' :: rest5 => jsonObjectItems fuel rest5 (acc ++ [(key, v)])
            | '\x7d' :: rest5 => .ok (Json.obj (acc ++ [(key, v)]), rest5)
            | _ => .error "expected comma or closing brace"
        | _ => .error "expected colon"
    | _ => .error "expected object key"

end

/-- Python's `json.loads`: parse a complete document; anything
unparseable raises `ValueError` (`json.JSONDecodeError` subclasses
it). -/
def json_loads (s : String) : Except PyError Json :=
  match jsonValue (s.length + 1) s.toList with
  | .error e => .error (.valueError e)
  | .ok (v, rest) =>
    if skipWs rest = [] then .ok v
    else .error (.valueError "Extra data")

/-- Python's `json.load(fp)`: read the whole stream and parse it
(CPython defines `load` as `loads(fp.read())`). -/
def json_load (w : TextIOWrapper) : Except PyError Json :=
  json_loads w.readAll

/-! ## Small Python-semantics helpers -/

/-- ASCII whitespace, as Python's `str.strip` sees it. -/
def isSpaceChar (c : Char) : Bool :=
  c = ' ' || c = '\t' || c = '\n' || c = '\r'

/-- Strip leading and trailing whitespace. -/
def trimChars (l : List Char) : List Char :=
  ((l.dropWhile isSpaceChar).reverse.dropWhile isSpaceChar).reverse

/-- The mimetype component `werkzeug.http.parse_options_header`
extracts from a `Content-Type` header value: the part before any
`;`, with surrounding whitespace stripped. -/
def mimeOf (ct : String) : String :=
  String.mk (trimChars (splitFirst ';' ct.toList).1)

/-- First value stored under a key, as `werkzeug` MultiDicts and the
association lists of parsed JSON objects answer `d[key]`. -/
def lookupFirst {α : Type} : List (String × α) → String → Option α
  | [], _ => none
  | (k, v) :: rest, key => if k = key then some v else lookupFirst rest key

/-- Python subscripting `value[key]` with a string key: a dict lookup
(raising `KeyError` when absent); every non-mapping JSON value raises
`TypeError`. -/
def jsonGetItem (j : Json) (key : String) : Except PyError Json :=
  match j with
  | .obj fields =>
    match lookupFirst fields key with
    | some v => .ok v
    | none => .error (.keyError key)
  | .arr _ => .error (.typeError "list indices must be integers")
  | .str _ => .error (.typeError "string indices must be integers")
  | _ => .error (.typeError "object is not subscriptable")

/-- Python `==` between a decoded JSON value and a string: only equal
strings compare equal; any other value is simply unequal, never an
error. -/
def jsonEqStr (j : Json) (s : String) : Bool :=
  match j with
  | .str t => t = s
  | _ => false

/-- Python `str()` of a decoded JSON value, as interpolated into
messages.  Container renderings are abbreviated; the code only ever
formats provider login names, which are strings. -/
def pyStr : Json → String
  | .str s => s
  | .num n => toString n
  | .bool true => "True"
  | .bool false => "False"
  | .null => "None"
  | .arr _ => "[...]"
  | .obj _ => "\x7b...\x7d"

/-! ## `geofront.backends.github` -/

/-- The access token carried by a `TokenArg`: `request` unwraps an
`Identity` to its `access_token` attribute. -/
def TokenArg.resolve : TokenArg → Json
  | .token t => t
  | .identity i => i.access_token

/-- `geofront.backends.github.request`: authenticated GitHub API call
returning the parsed JSON body.  Building the `Authorization: token
<access_token>` header concatenates the token onto a string, so a
non-string token raises `TypeError` before any traffic; `urlopen`
failures surface as `ioError`; a declared content type other than
`application/json` fails the `assert`; the body is wrapped in a
`TextIOWrapper` and parsed either by `json.loads` on the fully read
text (when debug logging is enabled, so the text can also be logged)
or by `json.load` on the wrapper itself.  `requestWithToken` is the
part of the helper after the token string is in hand. -/
def requestWithToken (world : World) (tok url method : String) :
    Except PyError Json :=
  match world.api url tok method with
  | .ioError => .error .ioError
  | .response contentType body =>
    let mimetype := mimeOf contentType
    if mimetype = "application/json" then
      let io_wrapper : TextIOWrapper := ⟨body.toList, 0⟩
      if world.debug then
        let rd := io_wrapper.readAll
        json_loads rd
      else
        json_load io_wrapper
    else
      .error (.assertionError
        ("Content-Type of " ++ url ++ " is not application/json but " ++
          contentType))

/-- `geofront.backends.github.request` proper: unwrap the token
argument; a non-string token raises `TypeError` while the
`Authorization` header is being concatenated. -/
def request (world : World) (access_token : TokenArg) (url : String)
    (method : String := "GET") : Except PyError Json :=
  match access_token.resolve with
  | .str tok => requestWithToken world tok url method
  | _ => .error (.typeError "Can't convert object to str implicitly")

/-- `GitHubOrganization`: a team backend configured with an OAuth
client id and secret and the login name of the GitHub organization
whose membership gates access. -/
structure GitHubOrganization where
  client_id : String
  client_secret : String
  org_login : String

/-- `GitHubOrganization.AUTHORIZE_URL`. -/
def AUTHORIZE_URL : String := "https://github.com/login/oauth/authorize"

/-- `GitHubOrganization.ACCESS_TOKEN_URL`. -/
def ACCESS_TOKEN_URL : String := "https://github.com/login/oauth/access_token"

/-- `GitHubOrganization.USER_URL`. -/
def USER_URL : String := "https://api.github.com/user"

/-- `GitHubOrganization.ORGS_LIST_URL`. -/
def ORGS_LIST_URL : String := "https://api.github.com/user/orgs"

/-- The query parameters `request_authentication` form-encodes, in the
order the source's dict literal writes them. -/
def authParams (self : GitHubOrganization) (auth_nonce redirect_url : String) :
    List (String × String) :=
  [("client_id", self.client_id),
   ("redirect_uri", redirect_url),
   ("scope", "read:org,admin:public_key"),
   ("state", auth_nonce)]

/-- `GitHubOrganization.request_authentication`: the provider
authorize-endpoint URL with the encoded query appended after `?`. -/
def GitHubOrganization.request_authentication (self : GitHubOrganization)
    (auth_nonce redirect_url : String) : String :=
  AUTHORIZE_URL ++ "?" ++ url_encode (authParams self auth_nonce redirect_url)

/-- Entries of the membership list examined by `authorize`: the check
`o['login'] == self.org_login` inside `any(...)`, evaluated lazily so
an error in a later entry is never reached once a match is found, and
an empty list is simply `False`. -/
def anyLoginLoop (org : String) : List Json → Except PyError Bool
  | [] => .ok false
  | o :: rest =>
    match jsonGetItem o "login" with
    | .error e => .error e
    | .ok v => if jsonEqStr v org then .ok true else anyLoginLoop org rest

/-- `any(o['login'] == org for o in response)` over an arbitrary
decoded JSON `response`: a JSON array iterates its elements; a
non-empty object iterates its keys, and subscripting a string key with
`'login'` raises `TypeError`; a non-empty string likewise iterates
characters; empty iterables yield `False`; everything else is not
iterable. -/
def membershipAny (org : String) : Json → Except PyError Bool
  | .arr entries => anyLoginLoop org entries
  | .obj [] => .ok false
  | .obj (_ :: _) => .error (.typeError "string indices must be integers")
  | .str s => if s.toList = [] then .ok false
              else .error (.typeError "string indices must be integers")
  | _ => .error (.typeError "object is not iterable")

/-- A decoded response that is a mapping carrying an `'error'` key:
`isinstance(response, collections.Mapping) and 'error' in response`. -/
def isErrorMapping : Json → Bool
  | .obj fields => (lookupFirst fields "error").isSome
  | _ => false

/-- `GitHubOrganization.authorize`: the access gate.  A `team_type`
that is not a subclass of `GitHubOrganization` is refused before any
traffic; only `IOError` from the membership request is caught and
collapsed to `False`; an error-shaped mapping is `False`; otherwise
the membership list is scanned for the configured organization
login. -/
def GitHubOrganization.authorize (self : GitHubOrganization) (world : World)
    (identity : Identity) : Except PyError Bool :=
  if ¬ (identity.team_type.isSubclassOf TeamType.gitHubOrganization) then
    .ok false
  else
    match request world (.identity identity) ORGS_LIST_URL "GET" with
    | .error PyError.ioError => .ok false
    | .error e => .error e
    | .ok response =>
      if isErrorMapping response then .ok false
      else membershipAny self.org_login response

/-- The decoded token-endpoint response: either a `MultiDict` of
form fields or a parsed JSON value. -/
inductive TokenData where
  | form (fields : List (String × String))
  | json (j : Json)

/-- `token_data['access_token']`: a form `MultiDict` answers its first
value under the key or raises `KeyError`; a JSON value is subscripted
as a Python value. -/
def TokenData.getAccessToken : TokenData → Except PyError Json
  | .form fields =>
    match lookupFirst fields "access_token" with
    | some v => .ok (Json.str v)
    | none => .error (.keyError "access_token")
  | .json j => jsonGetItem j "access_token"

/-- The content-type dispatch on the token-endpoint response inside
`authenticate`: URL-encoded form data is decoded by
`url_decode_stream`, JSON by `json.load`, and any other declared
content type raises `AuthenticationError`. -/
def decodeTokenResponse (contentType body : String) :
    Except PyError TokenData :=
  let mimetype := mimeOf contentType
  if mimetype = "application/x-www-form-urlencoded" then
    .ok (TokenData.form (url_decode body))
  else if mimetype = "application/json" then
    (json_loads body).map TokenData.json
  else
    .error (.authenticationError
      (ACCESS_TOKEN_URL ++ " sent unsupported content type: " ++ contentType))

/-- The form body `authenticate` POSTs to the token endpoint. -/
def tokenPostData (self : GitHubOrganization)
    (requested_redirect_url code : String) : String :=
  url_encode
    [("client_id", self.client_id),
     ("client_secret", self.client_secret),
     ("code", code),
     ("redirect_uri", requested_redirect_url)]

/-- Tail of `authenticate` after the access token is in hand: fetch
the authenticated user, build the fresh `Identity` from the backend
class, the provider login name and the token, and gate it through
`authorize`; `False` from `authorize` raises `AuthenticationError`
with the not-a-member message. -/
def authenticateFinish (self : GitHubOrganization) (world : World)
    (tok : Json) : Except PyError Identity := do
  let user_data ← request world (.token tok) USER_URL "GET"
  let login ← jsonGetItem user_data "login"
  let identity : Identity := ⟨TeamType.gitHubOrganization, login, tok⟩
  let ok ← self.authorize world identity
  if ok then pure identity
  else
    .error (.authenticationError
      ("@" ++ pyStr login ++ " user is not a member of @" ++
        self.org_login ++ " organization"))

/-- Middle of `authenticate`: POST the code exchange to the token
endpoint (`urlopen` errors propagate), decode the response by content
type, extract the access token, and continue. -/
def authenticateExchange (self : GitHubOrganization) (world : World)
    (requested_redirect_url code : String) : Except PyError Identity :=
  match world.tokenEndpoint (tokenPostData self requested_redirect_url code) with
  | .ioError => .error .ioError
  | .response contentType body => do
    let token_data ← decodeTokenResponse contentType body
    let tok ← token_data.getAccessToken
    authenticateFinish self world tok

/-- `GitHubOrganization.authenticate`: the callback consumer.  `args`
is the callback request's parsed query `MultiDict`
(`Request(wsgi_environ).args`).  A missing `code` or `state` raises
`KeyError`, caught and turned into a bare `AuthenticationError`; a
`state` differing from the issued nonce raises the same; then the
code exchange proceeds. -/
def GitHubOrganization.authenticate (self : GitHubOrganization)
    (world : World) (auth_nonce requested_redirect_url : String)
    (args : List (String × String)) : Except PyError Identity :=
  match lookupFirst args "code", lookupFirst args "state" with
  | some code, some stateValue =>
    if stateValue = auth_nonce then
      authenticateExchange self world requested_redirect_url code
    else .error (.authenticationError "")
  | _, _ => .error (.authenticationError "")

/-! ## `geofront.remote` (modelled from the spec)

The module defining `Remote` and `AuthorizedKeyList` is not part of
the source tree; only its tests are.  The definitions below are
modelled from the specification (sections 3, 4.2, 4.3, 6) and checked
against the tests' expectations. -/

/-- Modelled from the spec: the opaque `PublicKey` value of the
external key codec — algorithm identifier, base64 key material,
optional comment; equality is structural. -/
structure PublicKey where
  alg : String
  material : String
  comment : Option String
deriving DecidableEq, Repr

/-- Join groups with a separator character. -/
def joinWith (sep : Char) : List (List Char) → List Char
  | [] => []
  | [g] => g
  | g :: h :: rest => g ++ sep :: joinWith sep (h :: rest)

/-- Modelled from the spec: `format_openssh_pubkey` of the external
key codec — one OpenSSH public-key line: algorithm token, key
material, optional trailing comment, space-separated. -/
def format_openssh_pubkey (k : PublicKey) : String :=
  k.alg ++ " " ++ k.material ++
    (match k.comment with
     | some c => " " ++ c
     | none => "")

/-- Modelled from the spec: `parse_openssh_pubkey` of the external key
codec — split a stripped line into algorithm, material and the
remainder as the comment; anything with fewer than two tokens is a
malformed line and raises. -/
def parse_openssh_pubkey (line : String) : Except PyError PublicKey :=
  match (splitOnChar ' ' (trimChars line.toList)).filter (fun t => t ≠ []) with
  | [a, m] => .ok ⟨String.mk a, String.mk m, none⟩
  | a :: m :: c :: rest =>
    .ok ⟨String.mk a, String.mk m, some (String.mk (joinWith ' ' (c :: rest)))⟩
  | _ => .error (.valueError "not a valid OpenSSH public key line")

/-- A line whose stripped form is empty. -/
def isBlankLine (l : String) : Bool := trimChars l.toList = []

/-- Modelled from the spec: the read path of `AuthorizedKeyList` —
the backing file's lines with blank lines skipped. -/
def nonBlankLines (file : List String) : List String :=
  file.filter (fun l => ¬ isBlankLine l)

/-- Parse every line through the codec, in file order; the first
malformed line surfaces its error. -/
def parseLines : List String → Except PyError (List PublicKey)
  | [] => .ok []
  | l :: rest =>
    match parse_openssh_pubkey l with
    | .error e => .error e
    | .ok k =>
      match parseLines rest with
      | .error e => .error e
      | .ok ks => .ok (k :: ks)

/-- Modelled from the spec: one full read of the key store — open the
file, read it, skip blank lines, decode each line in file order. -/
def readKeys (file : List String) : Except PyError (List PublicKey) :=
  parseLines (nonBlankLines file)

/-- Modelled from the spec: the write path — truncate and rewrite the
whole file, one formatted key per line, never emitting blank lines. -/
def writeKeys (keys : List PublicKey) : List String :=
  keys.map format_openssh_pubkey

/-- Python single-index resolution: a negative index counts from the
end; out of range is `None` (an `IndexError` at the call site). -/
def pyResolveIndex (len : Nat) (i : Int) : Option Nat :=
  let j : Int := if i < 0 then i + len else i
  if 0 ≤ j ∧ j < len then some j.toNat else none

/-- Python slice-bound clipping into `[0, len]`, with negative bounds
counted from the end. -/
def pyClip (len : Nat) (v : Int) : Nat :=
  (min (max (if v < 0 then v + len else v) 0) (len : Int)).toNat

/-- Python step-one slice range: missing bounds default to the ends,
and a stop before the start degenerates to an empty slice at the
start. -/
def pySliceRange (len : Nat) (start stop : Option Int) : Nat × Nat :=
  let s := match start with
           | none => 0
           | some v => pyClip len v
  let e := match stop with
           | none => len
           | some v => pyClip len v
  (s, max s e)

/-- Python step-one slice assignment `l[start:stop] = repl` on an
in-memory list. -/
def pySetSlice {α : Type} (l : List α) (start stop : Option Int)
    (repl : List α) : List α :=
  let r := pySliceRange l.length start stop
  l.take r.1 ++ repl ++ l.drop r.2

/-- Python slice-bound clipping for a negative step, into
`[-1, len-1]`, with negative bounds counted from the end (CPython's
`PySlice_AdjustIndices`). -/
def pyClipBack (len : Nat) (v : Int) : Int :=
  max (-1) (min (if v < 0 then v + len else v) ((len : Int) - 1))

/-- Python slice-read index resolution, CPython's `slice.indices`:
a zero step raises `ValueError`; a positive step walks clipped
`[start, stop)` upward from a default start of 0; a negative step
walks clipped `[stop, start]` downward from a default start of
`len-1`. -/
def pySliceIndices (len : Nat) (start stop step : Option Int) :
    Except PyError (List Nat) :=
  let st := step.getD 1
  if st = 0 then .error (.valueError "slice step cannot be zero")
  else if 0 < st then
    let stn := st.toNat
    let s := match start with
             | none => 0
             | some v => pyClip len v
    let e := match stop with
             | none => len
             | some v => pyClip len v
    let count := if s < e then (e - s + stn - 1) / stn else 0
    .ok ((List.range count).map (fun k => s + k * stn))
  else
    let stn := (-st).toNat
    let s : Int := match start with
                   | none => (len : Int) - 1
                   | some v => pyClipBack len v
    let e : Int := match stop with
                   | none => -1
                   | some v => pyClipBack len v
    let count := if e < s then ((s - e).toNat - 1) / stn + 1 else 0
    .ok ((List.range count).map (fun k => (s - ((k * stn : Nat) : Int)).toNat))

/-- Modelled from the spec: `AuthorizedKeyList` holds nothing but the
parameters needed to reach the remote file — no cached keys, no
retained handles. -/
structure AuthorizedKeyList where
  host : String
  path : String

/-- Modelled from the spec: `key_list[i] = key` — full read, replace
the element at the resolved index (raising `IndexError` out of
range), full rewrite. -/
def AuthorizedKeyList.setItemIndex (file : List String) (i : Int)
    (key : PublicKey) : Except PyError (List String) :=
  match readKeys file with
  | .error e => .error e
  | .ok keys =>
    match pyResolveIndex keys.length i with
    | none => .error (.indexError "list assignment index out of range")
    | some j => .ok (writeKeys (keys.set j key))

/-- Modelled from the spec: `key_list[start:stop] = keys` — full
read, splice in the replacement sequence (which may grow or shrink
the list), full rewrite. -/
def AuthorizedKeyList.setItemSlice (file : List String)
    (start stop : Option Int) (repl : List PublicKey) :
    Except PyError (List String) :=
  match readKeys file with
  | .error e => .error e
  | .ok keys => .ok (writeKeys (pySetSlice keys start stop repl))

/-- Modelled from the spec: `len(key_list)` — a full read, counted. -/
def AuthorizedKeyList.lenKeys (file : List String) : Except PyError Nat :=
  match readKeys file with
  | .error e => .error e
  | .ok keys => .ok keys.length

/-- Modelled from the spec: `key_list[i]` — a full read, indexed with
Python index semantics. -/
def AuthorizedKeyList.getItemIndex (file : List String) (i : Int) :
    Except PyError PublicKey :=
  match readKeys file with
  | .error e => .error e
  | .ok keys =>
    match pyResolveIndex keys.length i with
    | none => .error (.indexError "list index out of range")
    | some j => .ok (keys.getD j ⟨"", "", none⟩)

/-- Modelled from the spec: `iter(key_list)` — a full read, yielding
every decoded key in file order. -/
def AuthorizedKeyList.readAllKeys (file : List String) :
    Except PyError (List PublicKey) :=
  readKeys file

/-- Modelled from the spec: `key_list[start:stop:step]` — a full
read, then the keys selected by standard Python slice semantics
(defaulting bounds, counting negative values from the end, clipping
out-of-range bounds silently, stepping as requested). -/
def AuthorizedKeyList.getItemSlice (file : List String)
    (start stop step : Option Int) : Except PyError (List PublicKey) :=
  match readKeys file with
  | .error e => .error e
  | .ok keys =>
    match pySliceIndices keys.length start stop step with
    | .error e => .error e
    | .ok idxs => .ok (idxs.map (fun i => keys.getD i ⟨"", "", none⟩))

/-- One interaction with the key store: a read through one of the
sequence operations (length, single index, slice, full iteration),
or an external actor rewriting the backing file. -/
inductive KLOp where
  | readLen
  | readIndex (i : Int)
  | readSlice (start stop step : Option Int)
  | readAll
  | extRewrite (newFile : List String)

/-- What one interaction observes. -/
inductive KLObs where
  | length (n : Except PyError Nat)
  | key (k : Except PyError PublicKey)
  | slice (ks : Except PyError (List PublicKey))
  | keys (ks : Except PyError (List PublicKey))
  | written

/-- Step semantics: reads perform the full read against the file as
it stands and leave it unchanged; an external rewrite replaces the
file. -/
def klStep (file : List String) : KLOp → List String × KLObs
  | .readLen => (file, .length (AuthorizedKeyList.lenKeys file))
  | .readIndex i => (file, .key (AuthorizedKeyList.getItemIndex file i))
  | .readSlice start stop step =>
    (file, .slice (AuthorizedKeyList.getItemSlice file start stop step))
  | .readAll => (file, .keys (AuthorizedKeyList.readAllKeys file))
  | .extRewrite newFile => (newFile, .written)

/-- Run a sequence of interactions from an initial file, collecting
the observations in order. -/
def klRun (file : List String) : List KLOp → List KLObs
  | [] => []
  | op :: ops =>
    let r := klStep file op
    r.2 :: klRun r.1 ops

/-- The file state as of the instant after a given prefix of
interactions. -/
def klStateAt (file : List String) (ops : List KLOp) : List String :=
  ops.foldl (fun st op => (klStep st op).1) file

/-! ## `Remote` (modelled from the spec) -/

/-- Modelled from the spec: an IPv4 or IPv6 address value, as
`ipaddress.ip_address` produces; equality is structural. -/
inductive Address where
  | v4 (a : Nat)
  | v6 (a : Nat)
deriving DecidableEq, Hashable, Repr

/-- Modelled from the spec: `Remote` — an immutable (login user,
address, port) value with structural equality and hashing. -/
structure Remote where
  user : String
  address : Address
  port : Nat
deriving DecidableEq, Hashable, Repr

/-- Modelled from the spec: the `Remote(user, address)` constructor
call with the port omitted — the port defaults to 22. -/
def Remote.make (user : String) (address : Address) : Remote :=
  ⟨user, address, 22⟩

/-! ## Shared evaluation lemmas -/

/-- `request` behind an `Identity` whose token is the string `tok`
reduces to `requestWithToken`. -/
theorem request_identity_eq (world : World) (identity : Identity)
    (tok url method : String)
    (htok : identity.access_token = Json.str tok) :
    request world (.identity identity) url method
      = requestWithToken world tok url method := by
  unfold request
  dsimp only [TokenArg.resolve]
  rw [htok]

/-- `request` on a raw string token reduces to `requestWithToken`. -/
theorem request_token_eq (world : World) (tok url method : String) :
    request world (.token (Json.str tok)) url method
      = requestWithToken world tok url method := rfl

/-- A network-level failure surfaces as `IOError`. -/
theorem requestWithToken_ioError (world : World) (tok url method : String)
    (h : world.api url tok method = .ioError) :
    requestWithToken world tok url method = .error .ioError := by
  unfold requestWithToken
  rw [h]

/-- A JSON-typed response is parsed by `json.loads` — on either side
of the debug-logging branch. -/
theorem requestWithToken_json (world : World) (tok url method ct body : String)
    (h : world.api url tok method = .response ct body)
    (hm : mimeOf ct = "application/json") :
    requestWithToken world tok url method = json_loads body := by
  unfold requestWithToken
  rw [h]
  dsimp only
  rw [if_pos hm]
  cases hd : world.debug <;> rfl

/-- A response declaring any other content type fails the `assert`. -/
theorem requestWithToken_nonjson (world : World) (tok url method ct body : String)
    (h : world.api url tok method = .response ct body)
    (hm : mimeOf ct ≠ "application/json") :
    requestWithToken world tok url method
      = .error (.assertionError
          ("Content-Type of " ++ url ++ " is not application/json but " ++ ct)) := by
  unfold requestWithToken
  rw [h]
  dsimp only
  rw [if_neg hm]

/-- Membership entries shaped like GitHub's records: an object
carrying a `login` field. -/
def entryHasLogin : Json → Bool
  | .obj fields => (lookupFirst fields "login").isSome
  | _ => false

/-- Whether one well-shaped membership entry names the organization. -/
def loginMatches (org : String) (e : Json) : Bool :=
  match jsonGetItem e "login" with
  | .ok v => jsonEqStr v org
  | .error _ => false

/-- On a list of well-shaped entries the membership scan is exactly
`List.any`. -/
theorem anyLoginLoop_eq_any (org : String) :
    ∀ entries : List Json, entries.all entryHasLogin = true →
      anyLoginLoop org entries = .ok (entries.any (loginMatches org)) := by
  intro entries h
  induction entries with
  | nil => rfl
  | cons o rest ih =>
    rw [List.all_cons, Bool.and_eq_true] at h
    obtain ⟨ho, hrest⟩ := h
    cases o with
    | obj fields =>
      rcases hv : lookupFirst fields "login" with _ | v
      · simp only [entryHasLogin, hv, Option.isSome_none] at ho
        exact absurd ho (by decide)
      · have hget : jsonGetItem (Json.obj fields) "login" = .ok v := by
          simp only [jsonGetItem, hv]
        rw [List.any_cons]
        unfold anyLoginLoop
        rw [hget]
        dsimp only
        have hlm : loginMatches org (Json.obj fields) = jsonEqStr v org := by
          unfold loginMatches
          rw [hget]
        by_cases hm : jsonEqStr v org = true
        · rw [if_pos hm, hlm, hm, Bool.true_or]
        · rw [if_neg hm, hlm, Bool.eq_false_iff.mpr hm, Bool.false_or,
            ih hrest]
    | null => simp [entryHasLogin] at ho
    | bool b => simp [entryHasLogin] at ho
    | num n => simp [entryHasLogin] at ho
    | str s => simp [entryHasLogin] at ho
    | arr elems => simp [entryHasLogin] at ho

/-! ## Claim C3 -/

/-- C3: an `Identity` whose backend tag is not `GitHubOrganization`
is refused by `authorize` with `False` — for every network behaviour,
so no membership request influences (or is needed for) the answer. -/
theorem authorize_foreign_backend_false (self : GitHubOrganization)
    (world : World) (identity : Identity)
    (h : identity.team_type ≠ TeamType.gitHubOrganization) :
    self.authorize world identity = .ok false := by
  have hb : identity.team_type.isSubclassOf TeamType.gitHubOrganization = false := by
    cases ht : identity.team_type <;>
      simp_all [TeamType.isSubclassOf]
  unfold GitHubOrganization.authorize
  simp [hb]

/-- Witness: an `Identity` carrying the abstract `Team` tag is
refused even by a network that would report membership. -/
theorem authorize_foreign_backend_false_witness :
    GitHubOrganization.authorize ⟨"cid", "sec", "myorg"⟩
      ⟨false, fun _ => .ioError,
       fun _ _ _ => .response "application/json" "[\x7b\"login\": \"myorg\"\x7d]"⟩
      ⟨TeamType.team, Json.str "alice", Json.str "tok"⟩ = .ok false :=
  authorize_foreign_backend_false _ _ _ (by decide)

/-! ## Claim C2 -/

/-- C2: `authenticate` raises `AuthenticationError` (returning no
`Identity`) whenever the callback's query lacks `code`, lacks
`state`, or carries a `state` that is not exactly the issued nonce;
`lookupFirst args "state" ≠ some auth_nonce` covers both the absent
and every mismatched (e.g. prefix) case. -/
theorem authenticate_csrf_exact_match (self : GitHubOrganization)
    (world : World) (auth_nonce requested_redirect_url : String)
    (args : List (String × String))
    (h : lookupFirst args "code" = none
         ∨ lookupFirst args "state" ≠ some auth_nonce) :
    self.authenticate world auth_nonce requested_redirect_url args
      = .error (.authenticationError "") := by
  unfold GitHubOrganization.authenticate
  rcases hc : lookupFirst args "code" with _ | code <;>
    rcases hs : lookupFirst args "state" with _ | stv <;>
      simp_all

/-- Witness: a `state` that is merely a prefix of the nonce is
rejected. -/
theorem authenticate_csrf_exact_match_witness :
    GitHubOrganization.authenticate ⟨"cid", "sec", "myorg"⟩
      ⟨false, fun _ => .ioError, fun _ _ _ => .ioError⟩
      "nonce123" "https://cb" [("code", "c0"), ("state", "nonce")]
      = .error (.authenticationError "") :=
  authenticate_csrf_exact_match _ _ _ _ _ (Or.inr (by decide))

/-! ## Claim C10 -/

/-- C10: for every access token argument, URL and method, the value
`request` returns is the same whether or not debug logging is
enabled — the branch that reads the whole body and parses it with
`json.loads` agrees with the branch that hands the stream to
`json.load`. -/
theorem request_debug_logging_equiv (world : World) (access_token : TokenArg)
    (url method : String) (d : Bool) :
    request ⟨d, world.tokenEndpoint, world.api⟩ access_token url method
      = request world access_token url method := by
  obtain ⟨wd, wte, wapi⟩ := world
  unfold request
  dsimp only
  cases d <;> cases wd <;> rfl

/-! ## Claim C8 -/

/-- C8: `Remote` values are pure values — built from identical
(user, address, port) fields they are equal and hash equal; changing
any single field breaks equality; the constructor's omitted port
defaults to 22. -/
theorem remote_value_semantics (u u2 : String) (a a2 : Address)
    (p p2 : Nat) :
    ((Remote.mk u a p = Remote.mk u2 a2 p2) ↔ (u = u2 ∧ a = a2 ∧ p = p2))
    ∧ (u = u2 → a = a2 → p = p2 →
        hash (Remote.mk u a p) = hash (Remote.mk u2 a2 p2))
    ∧ (u ≠ u2 → Remote.mk u a p ≠ Remote.mk u2 a p)
    ∧ (a ≠ a2 → Remote.mk u a p ≠ Remote.mk u a2 p)
    ∧ (p ≠ p2 → Remote.mk u a p ≠ Remote.mk u a p2)
    ∧ Remote.make u a = Remote.mk u a 22 := by
  refine ⟨?_, ?_, ?_, ?_, ?_, rfl⟩
  · simp [Remote.mk.injEq]
  · rintro rfl rfl rfl; rfl
  · simp [Remote.mk.injEq]
  · simp [Remote.mk.injEq]
  · simp [Remote.mk.injEq]

/-- Witness at the tests' concrete values (`192.168.0.1` and
`192.168.0.2` as numeric IPv4 addresses). -/
theorem remote_value_semantics_witness :
    (Remote.mk "a" (Address.v4 3232235521) 22
      = Remote.mk "a" (Address.v4 3232235521) 22)
    ∧ hash (Remote.mk "a" (Address.v4 3232235521) 22)
      = hash (Remote.mk "a" (Address.v4 3232235521) 22)
    ∧ Remote.mk "a" (Address.v4 3232235521) 22
      ≠ Remote.mk "b" (Address.v4 3232235521) 22
    ∧ Remote.mk "a" (Address.v4 3232235521) 22
      ≠ Remote.mk "a" (Address.v4 3232235522) 22
    ∧ Remote.mk "a" (Address.v4 3232235521) 22
      ≠ Remote.mk "a" (Address.v4 3232235521) 2222
    ∧ Remote.make "a" (Address.v4 3232235521)
      = Remote.mk "a" (Address.v4 3232235521) 22 :=
  ⟨((remote_value_semantics "a" "a" (Address.v4 3232235521)
      (Address.v4 3232235521) 22 22).1).mpr ⟨rfl, rfl, rfl⟩,
   (remote_value_semantics "a" "a" (Address.v4 3232235521)
      (Address.v4 3232235521) 22 22).2.1 rfl rfl rfl,
   (remote_value_semantics "a" "b" (Address.v4 3232235521)
      (Address.v4 3232235521) 22 22).2.2.1 (by decide),
   (remote_value_semantics "a" "a" (Address.v4 3232235521)
      (Address.v4 3232235522) 22 22).2.2.2.1 (by decide),
   (remote_value_semantics "a" "a" (Address.v4 3232235521)
      (Address.v4 3232235521) 22 2222).2.2.2.2.1 (by decide),
   (remote_value_semantics "a" "a" (Address.v4 3232235521)
      (Address.v4 3232235521) 22 22).2.2.2.2.2⟩

/-! ## Claim C7 -/

/-- Six distinct concrete keys for the mutation scenario. -/
def demoKey (i : Nat) : PublicKey :=
  ⟨"ssh-rsa", String.mk ('A' :: 'Q' :: List.replicate i 'B'), some "demo"⟩

/-- C7: starting from a file of six keys, assigning `[]` to the slice
`[3:]` leaves `[k0,k1,k2]`; assigning `k3` at index 2 leaves
`[k0,k1,k3]`; assigning `k4` at index `-1` leaves `[k0,k1,k4]` — each
step rewriting the file to exactly the formatted new list. -/
theorem authorized_keys_setitem_scenario :
    AuthorizedKeyList.setItemSlice
        (writeKeys [demoKey 0, demoKey 1, demoKey 2,
                    demoKey 3, demoKey 4, demoKey 5])
        (some 3) none []
      = .ok (writeKeys [demoKey 0, demoKey 1, demoKey 2])
    ∧ AuthorizedKeyList.setItemIndex
        (writeKeys [demoKey 0, demoKey 1, demoKey 2]) 2 (demoKey 3)
      = .ok (writeKeys [demoKey 0, demoKey 1, demoKey 3])
    ∧ AuthorizedKeyList.setItemIndex
        (writeKeys [demoKey 0, demoKey 1, demoKey 3]) (-1) (demoKey 4)
      = .ok (writeKeys [demoKey 0, demoKey 1, demoKey 4]) :=
  ⟨rfl, rfl, rfl⟩

/-! ## Claim C6 -/

/-- Reading every position of a list in order reproduces the list. -/
theorem map_getD_range {α : Type} (l : List α) (d : α) :
    (List.range l.length).map (fun i => l.getD i d) = l := by
  induction l with
  | nil => rfl
  | cons x xs ih =>
    rw [List.length_cons, List.range_succ_eq_map, List.map_cons,
      List.map_map]
    have hcomp : ((fun i => (x :: xs).getD i d) ∘ Nat.succ)
        = fun i => xs.getD i d := funext fun i => rfl
    rw [hcomp, ih]
    rfl

/-- The unbounded step-one slice selects every index in order. -/
theorem pySliceIndices_full (len : Nat) :
    pySliceIndices len none none none = .ok (List.range len) := by
  simp only [pySliceIndices, Option.getD_none]
  rw [if_neg (by norm_num), if_pos (by norm_num)]
  have hcount : (if 0 < len then (len - 0 + (1 : Int).toNat - 1) / (1 : Int).toNat
      else 0) = len := by
    rcases Nat.eq_zero_or_pos len with h | h
    · simp [h]
    · rw [if_pos h]
      simp
  rw [hcount]
  simp

/-- A full slice read is the same as full iteration: the keys in file
order. -/
theorem getItemSlice_full (file : List String) :
    AuthorizedKeyList.getItemSlice file none none none
      = AuthorizedKeyList.readAllKeys file := by
  unfold AuthorizedKeyList.getItemSlice AuthorizedKeyList.readAllKeys
  cases h : readKeys file with
  | error e => rfl
  | ok keys =>
    show (match pySliceIndices keys.length none none none with
          | .error e => (Except.error e : Except PyError (List PublicKey))
          | .ok idxs => .ok (idxs.map (fun i => keys.getD i ⟨"", "", none⟩)))
        = .ok keys
    rw [pySliceIndices_full]
    show Except.ok ((List.range keys.length).map
        (fun i => keys.getD i ⟨"", "", none⟩)) = Except.ok keys
    rw [map_getD_range]

/-- C6: every read — length, single index, slice, full iteration —
observes exactly the decode of the backing file as it stands at that
instant: the observation at step `n` of any interaction sequence is
the pure read function of the file state produced by the external
rewrites before step `n`, never of anything cached earlier.  In
particular a read directly after an external rewrite sees the new
file (shown for full iteration and for a length/index/slice battery
around a rewrite), the full slice read returns the keys in file
order, and blank lines are skipped. -/
theorem authorized_keys_reads_live :
    (∀ (file : List String) (ops : List KLOp) (n : Nat),
      (klRun file ops).get? n
        = (ops.get? n).map
            (fun op => (klStep (klStateAt file (ops.take n)) op).2))
    ∧ (∀ (file newFile : List String),
      klRun file [KLOp.readAll, KLOp.extRewrite newFile, KLOp.readAll]
        = [.keys (readKeys file), .written, .keys (readKeys newFile)])
    ∧ (∀ (file newFile : List String) (i : Int)
        (start stop step : Option Int),
      klRun file [KLOp.readLen, KLOp.readIndex i,
          KLOp.readSlice start stop step, KLOp.extRewrite newFile,
          KLOp.readLen, KLOp.readIndex i, KLOp.readSlice start stop step]
        = [.length (AuthorizedKeyList.lenKeys file),
           .key (AuthorizedKeyList.getItemIndex file i),
           .slice (AuthorizedKeyList.getItemSlice file start stop step),
           .written,
           .length (AuthorizedKeyList.lenKeys newFile),
           .key (AuthorizedKeyList.getItemIndex newFile i),
           .slice (AuthorizedKeyList.getItemSlice newFile start stop step)])
    ∧ (∀ file : List String,
        AuthorizedKeyList.getItemSlice file none none none
          = AuthorizedKeyList.readAllKeys file)
    ∧ (∀ file : List String, readKeys ("" :: file) = readKeys file) := by
  refine ⟨?_, fun _ _ => rfl, fun _ _ _ _ _ _ => rfl,
    getItemSlice_full, fun _ => rfl⟩
  intro file ops n
  induction ops generalizing file n with
  | nil => simp [klRun]
  | cons op ops ih =>
    cases n with
    | zero => simp [klRun, klStateAt]
    | succ n =>
      simpa [klRun, klStateAt] using ih (klStep file op).1 n

/-! ## Claim C1 -/

/-- Counterexample to C1 as stated: with a compatible identity and a
membership endpoint answering `text/html`, `authorize` does not
return `false` — the content-type `assert` inside `request` raises
`AssertionError`, which is not an `IOError` and therefore
propagates. -/
theorem authorize_content_error_raises_cx :
    GitHubOrganization.authorize ⟨"cid", "sec", "myorg"⟩
      ⟨false, fun _ => .ioError,
       fun _ _ _ => .response "text/html" "<html>not json</html>"⟩
      ⟨TeamType.gitHubOrganization, Json.str "alice", Json.str "tok"⟩
      = .error (.assertionError
          ("Content-Type of https://api.github.com/user/orgs is not " ++
           "application/json but text/html")) := rfl

/-- C1 (amended): `authorize` on a backend-compatible identity with a
string token collapses an I/O failure of the membership request to
`False`, collapses an error-shaped mapping payload to `False`, and on
a JSON list of well-shaped membership records returns `True` iff some
record's `login` equals the configured organization login; but a
response declaring a non-JSON content type is NOT collapsed — it
raises the `assert`'s `AssertionError`. -/
theorem authorize_fail_closed_amended (self : GitHubOrganization)
    (world : World) (identity : Identity) (tok : String)
    (hteam : identity.team_type = TeamType.gitHubOrganization)
    (htok : identity.access_token = Json.str tok) :
    (world.api ORGS_LIST_URL tok "GET" = .ioError →
      self.authorize world identity = .ok false)
    ∧ (∀ ct body fields,
        world.api ORGS_LIST_URL tok "GET" = .response ct body →
        mimeOf ct = "application/json" →
        json_loads body = .ok (.obj fields) →
        (lookupFirst fields "error").isSome = true →
        self.authorize world identity = .ok false)
    ∧ (∀ ct body entries,
        world.api ORGS_LIST_URL tok "GET" = .response ct body →
        mimeOf ct = "application/json" →
        json_loads body = .ok (.arr entries) →
        entries.all entryHasLogin = true →
        self.authorize world identity
          = .ok (entries.any (loginMatches self.org_login)))
    ∧ (∀ ct body,
        world.api ORGS_LIST_URL tok "GET" = .response ct body →
        mimeOf ct ≠ "application/json" →
        self.authorize world identity
          = .error (.assertionError
              ("Content-Type of " ++ ORGS_LIST_URL ++
               " is not application/json but " ++ ct))) := by
  have hsub : identity.team_type.isSubclassOf TeamType.gitHubOrganization = true := by
    rw [hteam]; rfl
  refine ⟨?_, ?_, ?_, ?_⟩
  · intro hio
    unfold GitHubOrganization.authorize
    rw [request_identity_eq world identity tok _ _ htok,
      requestWithToken_ioError world tok _ _ hio]
    simp [hsub]
  · intro ct body fields hresp hm hjson herr
    unfold GitHubOrganization.authorize
    rw [request_identity_eq world identity tok _ _ htok,
      requestWithToken_json world tok _ _ ct body hresp hm, hjson]
    simp [hsub, isErrorMapping, herr]
  · intro ct body entries hresp hm hjson hshape
    unfold GitHubOrganization.authorize
    rw [request_identity_eq world identity tok _ _ htok,
      requestWithToken_json world tok _ _ ct body hresp hm, hjson]
    simp only [hsub, Bool.not_true, Bool.false_eq_true, if_false]
    rw [if_neg (by simp [isErrorMapping])]
    exact anyLoginLoop_eq_any self.org_login entries hshape
  · intro ct body hresp hm
    unfold GitHubOrganization.authorize
    rw [request_identity_eq world identity tok _ _ htok,
      requestWithToken_nonjson world tok _ _ ct body hresp hm]
    simp [hsub]

/-- Witness: concrete runs through three of the amended conjuncts —
an unreachable endpoint gives `False`, an error mapping gives
`False`, and a membership list naming the organization gives
`True`. -/
theorem authorize_fail_closed_amended_witness :
    (GitHubOrganization.authorize ⟨"cid", "sec", "myorg"⟩
      ⟨false, fun _ => .ioError, fun _ _ _ => .ioError⟩
      ⟨TeamType.gitHubOrganization, Json.str "alice", Json.str "tok"⟩
      = .ok false)
    ∧ (GitHubOrganization.authorize ⟨"cid", "sec", "myorg"⟩
      ⟨false, fun _ => .ioError,
       fun _ _ _ => .response "application/json"
         "\x7b\"error\": \"bad credentials\"\x7d"⟩
      ⟨TeamType.gitHubOrganization, Json.str "alice", Json.str "tok"⟩
      = .ok false)
    ∧ (GitHubOrganization.authorize ⟨"cid", "sec", "myorg"⟩
      ⟨false, fun _ => .ioError,
       fun _ _ _ => .response "application/json"
         "[\x7b\"login\": \"other\"\x7d, \x7b\"login\": \"myorg\"\x7d]"⟩
      ⟨TeamType.gitHubOrganization, Json.str "alice", Json.str "tok"⟩
      = .ok true) := by
  refine ⟨?_, ?_, ?_⟩
  · exact (authorize_fail_closed_amended ⟨"cid", "sec", "myorg"⟩
      ⟨false, fun _ => .ioError, fun _ _ _ => .ioError⟩
      ⟨TeamType.gitHubOrganization, Json.str "alice", Json.str "tok"⟩
      "tok" rfl rfl).1 rfl
  · exact (authorize_fail_closed_amended ⟨"cid", "sec", "myorg"⟩
      ⟨false, fun _ => .ioError,
       fun _ _ _ => .response "application/json"
         "\x7b\"error\": \"bad credentials\"\x7d"⟩
      ⟨TeamType.gitHubOrganization, Json.str "alice", Json.str "tok"⟩
      "tok" rfl rfl).2.1 "application/json"
      "\x7b\"error\": \"bad credentials\"\x7d"
      [("error", Json.str "bad credentials")] rfl rfl rfl rfl
  · exact ((authorize_fail_closed_amended ⟨"cid", "sec", "myorg"⟩
      ⟨false, fun _ => .ioError,
       fun _ _ _ => .response "application/json"
         "[\x7b\"login\": \"other\"\x7d, \x7b\"login\": \"myorg\"\x7d]"⟩
      ⟨TeamType.gitHubOrganization, Json.str "alice", Json.str "tok"⟩
      "tok" rfl rfl).2.2.1 "application/json"
      "[\x7b\"login\": \"other\"\x7d, \x7b\"login\": \"myorg\"\x7d]"
      [Json.obj [("login", Json.str "other")],
       Json.obj [("login", Json.str "myorg")]] rfl rfl rfl rfl).trans rfl

/-! ## Shared lemmas about the `authenticate` pipeline -/

/-- Inversion for a successful `Except` bind: the first stage
succeeded with some value on which the continuation succeeds. -/
theorem except_bind_eq_ok {α β : Type} (x : Except PyError α)
    (f : α → Except PyError β) (b : β)
    (h : x >>= f = .ok b) : ∃ a, f a = .ok b ∧ x = .ok a :=
  match x, h with
  | .ok a, h => ⟨a, h, rfl⟩
  | .error _, h => nomatch h

/-- Forward step for a successful `Except` bind. -/
theorem except_ok_bind {α β : Type} (a : α) (f : α → Except PyError β) :
    ((Except.ok a : Except PyError α) >>= f) = f a := rfl

/-- Forward step for a failing `Except` bind. -/
theorem except_error_bind {α β : Type} (e : PyError)
    (f : α → Except PyError β) :
    ((Except.error e : Except PyError α) >>= f) = .error e := rfl

/-- With `code` present and `state` exactly the nonce, `authenticate`
proceeds to the token exchange. -/
theorem authenticate_args_to_exchange (self : GitHubOrganization)
    (world : World) (nonce redirect : String)
    (args : List (String × String)) (code : String)
    (hc : lookupFirst args "code" = some code)
    (hs : lookupFirst args "state" = some nonce) :
    self.authenticate world nonce redirect args
      = authenticateExchange self world redirect code := by
  unfold GitHubOrganization.authenticate
  rw [hc, hs]
  show (if nonce = nonce then authenticateExchange self world redirect code
        else Except.error (PyError.authenticationError ""))
      = authenticateExchange self world redirect code
  rw [if_pos rfl]

/-- With a response from the token endpoint, the exchange is the
content-type decode chained into the token extraction and the
finish. -/
theorem authenticateExchange_response_eq (self : GitHubOrganization)
    (world : World) (redirect code ct body : String)
    (h : world.tokenEndpoint (tokenPostData self redirect code)
          = .response ct body) :
    authenticateExchange self world redirect code
      = (decodeTokenResponse ct body >>= fun token_data =>
          token_data.getAccessToken >>= fun tok =>
            authenticateFinish self world tok) := by
  unfold authenticateExchange
  rw [h]

/-- A successful `authenticateFinish` returns exactly the freshly
built identity, and `authorize` accepted it. -/
theorem authenticateFinish_ok_implies (self : GitHubOrganization)
    (world : World) (tok : Json) (identity : Identity)
    (h : authenticateFinish self world tok = .ok identity) :
    self.authorize world identity = .ok true
      ∧ identity.team_type = TeamType.gitHubOrganization
      ∧ identity.access_token = tok := by
  unfold authenticateFinish at h
  obtain ⟨user_data, h, hreq⟩ := except_bind_eq_ok _ _ _ h
  obtain ⟨login, h, hget⟩ := except_bind_eq_ok _ _ _ h
  obtain ⟨ok, h, hauth⟩ := except_bind_eq_ok _ _ _ h
  cases ok with
  | false =>
    exact absurd
      (show Except.error (PyError.authenticationError
          ("@" ++ pyStr login ++ " user is not a member of @" ++
            self.org_login ++ " organization")) = Except.ok identity from h)
      (by simp)
  | true =>
    have h2 : (⟨TeamType.gitHubOrganization, login, tok⟩ : Identity)
        = identity := by
      injection (show Except.ok (⟨TeamType.gitHubOrganization, login, tok⟩
          : Identity) = Except.ok identity from h)
    rw [← h2]
    exact ⟨hauth, rfl, rfl⟩

/-- A successful `authenticateExchange` went through
`authenticateFinish` with some extracted token. -/
theorem authenticateExchange_ok_implies (self : GitHubOrganization)
    (world : World) (redirect code : String) (identity : Identity)
    (h : authenticateExchange self world redirect code = .ok identity) :
    ∃ tok, authenticateFinish self world tok = .ok identity := by
  unfold authenticateExchange at h
  revert h
  cases world.tokenEndpoint (tokenPostData self redirect code) with
  | ioError =>
    intro h
    exact absurd
      (show (Except.error PyError.ioError : Except PyError Identity)
        = .ok identity from h) (by simp)
  | response ct body =>
    intro h
    replace h := show (decodeTokenResponse ct body >>= fun token_data =>
        token_data.getAccessToken >>= fun tok =>
          authenticateFinish self world tok) = .ok identity from h
    obtain ⟨td, h, hdec⟩ := except_bind_eq_ok _ _ _ h
    obtain ⟨tok, h, htok⟩ := except_bind_eq_ok _ _ _ h
    exact ⟨tok, h⟩

/-- A successful `authenticate` went through `authenticateExchange`
with some callback code. -/
theorem authenticate_ok_implies (self : GitHubOrganization)
    (world : World) (nonce redirect : String)
    (args : List (String × String)) (identity : Identity)
    (h : self.authenticate world nonce redirect args = .ok identity) :
    ∃ code, authenticateExchange self world redirect code = .ok identity := by
  unfold GitHubOrganization.authenticate at h
  revert h
  cases lookupFirst args "code" with
  | none =>
    cases lookupFirst args "state" with
    | none =>
      intro h
      exact absurd (show Except.error (PyError.authenticationError "")
        = Except.ok identity from h) (by simp)
    | some stv =>
      intro h
      exact absurd (show Except.error (PyError.authenticationError "")
        = Except.ok identity from h) (by simp)
  | some code =>
    cases lookupFirst args "state" with
    | none =>
      intro h
      exact absurd (show Except.error (PyError.authenticationError "")
        = Except.ok identity from h) (by simp)
    | some stv =>
      intro h
      replace h := show (if stv = nonce then
          authenticateExchange self world redirect code
        else Except.error (PyError.authenticationError ""))
          = Except.ok identity from h
      by_cases hs : stv = nonce
      · rw [if_pos hs] at h
        exact ⟨code, h⟩
      · rw [if_neg hs] at h
        exact absurd h (by simp)

/-! ## Claim C4 -/

/-- C4: a successful `authenticate` yields exactly an identity its
own `authorize` accepts (and it carries this backend's tag); and
after a successful token exchange and user lookup, if `authorize`
refuses the freshly built identity, `authenticate` raises
`AuthenticationError` naming the non-member principal — never
returning an `Identity`. -/
theorem authenticate_gates_on_authorize (self : GitHubOrganization)
    (world : World) (nonce redirect : String)
    (args : List (String × String)) :
    (∀ identity, self.authenticate world nonce redirect args = .ok identity →
        self.authorize world identity = .ok true
          ∧ identity.team_type = TeamType.gitHubOrganization)
    ∧ (∀ (tok login user_data : Json),
        request world (.token tok) USER_URL "GET" = .ok user_data →
        jsonGetItem user_data "login" = .ok login →
        self.authorize world ⟨TeamType.gitHubOrganization, login, tok⟩
          = .ok false →
        authenticateFinish self world tok
          = .error (.authenticationError
              ("@" ++ pyStr login ++ " user is not a member of @" ++
                self.org_login ++ " organization")))
    ∧ (∀ (code ct body : String) (td : TokenData) (tok : Json),
        lookupFirst args "code" = some code →
        lookupFirst args "state" = some nonce →
        world.tokenEndpoint (tokenPostData self redirect code)
          = .response ct body →
        decodeTokenResponse ct body = .ok td →
        td.getAccessToken = .ok tok →
        self.authenticate world nonce redirect args
          = authenticateFinish self world tok) := by
  refine ⟨?_, ?_, ?_⟩
  · intro identity h
    obtain ⟨code, h⟩ := authenticate_ok_implies self world nonce redirect
      args identity h
    obtain ⟨tok, h⟩ := authenticateExchange_ok_implies self world redirect
      code identity h
    obtain ⟨h1, h2, _⟩ := authenticateFinish_ok_implies self world tok
      identity h
    exact ⟨h1, h2⟩
  · intro tok login user_data hreq hget hfalse
    unfold authenticateFinish
    rw [hreq, except_ok_bind]
    simp only [hget, except_ok_bind, hfalse]
    rfl
  · intro code ct body td tok hc hs hworld hdec htok
    rw [authenticate_args_to_exchange self world nonce redirect args code hc hs,
      authenticateExchange_response_eq self world redirect code ct body hworld,
      hdec, except_ok_bind]
    simp only [htok, except_ok_bind]

/-- Concrete worlds for the C4 witness: one in which the user is an
organization member and one in which the membership list is empty. -/
def c4Org : GitHubOrganization := ⟨"cid", "sec", "myorg"⟩

def c4WorldMember : World :=
  ⟨false,
   fun _ => .response "application/x-www-form-urlencoded" "access_token=tok123",
   fun url _ _ =>
     if url = USER_URL then
       .response "application/json" "\x7b\"login\": \"alice\"\x7d"
     else if url = ORGS_LIST_URL then
       .response "application/json" "[\x7b\"login\": \"myorg\"\x7d]"
     else .ioError⟩

def c4WorldNonMember : World :=
  ⟨false,
   fun _ => .response "application/x-www-form-urlencoded" "access_token=tok123",
   fun url _ _ =>
     if url = USER_URL then
       .response "application/json" "\x7b\"login\": \"alice\"\x7d"
     else if url = ORGS_LIST_URL then
       .response "application/json" "[]"
     else .ioError⟩

def c4Args : List (String × String) := [("code", "c0"), ("state", "n0")]

/-- Witness: in the member world a successful `authenticate`'s result
is accepted by `authorize`; in the non-member world the same callback
ends in the not-a-member `AuthenticationError`. -/
theorem authenticate_gates_on_authorize_witness :
    (GitHubOrganization.authorize c4Org c4WorldMember
        ⟨TeamType.gitHubOrganization, Json.str "alice", Json.str "tok123"⟩
        = .ok true)
    ∧ GitHubOrganization.authenticate c4Org c4WorldNonMember "n0"
        "https://cb" c4Args
      = .error (.authenticationError
          "@alice user is not a member of @myorg organization") := by
  constructor
  · exact ((authenticate_gates_on_authorize c4Org c4WorldMember "n0"
      "https://cb" c4Args).1
      ⟨TeamType.gitHubOrganization, Json.str "alice", Json.str "tok123"⟩
      rfl).1
  · have h3 := (authenticate_gates_on_authorize c4Org c4WorldNonMember "n0"
      "https://cb" c4Args).2.2 "c0" "application/x-www-form-urlencoded"
      "access_token=tok123" (TokenData.form [("access_token", "tok123")])
      (Json.str "tok123") rfl rfl rfl rfl rfl
    have h2 := (authenticate_gates_on_authorize c4Org c4WorldNonMember "n0"
      "https://cb" c4Args).2.1 (Json.str "tok123") (Json.str "alice")
      (Json.obj [("login", Json.str "alice")]) rfl rfl rfl
    exact h3.trans h2

/-! ## Claim C5 -/

/-- C5: the token-endpoint response body is decoded as URL-encoded
form data exactly when the declared content type is URL-encoded, as
JSON exactly when it is JSON, and for every other declared content
type `authenticate` fails hard with `AuthenticationError`. -/
theorem token_content_type_dispatch (self : GitHubOrganization)
    (world : World) (nonce redirect : String)
    (args : List (String × String)) (code ct body : String) :
    (mimeOf ct = "application/x-www-form-urlencoded" →
      decodeTokenResponse ct body = .ok (.form (url_decode body)))
    ∧ (mimeOf ct = "application/json" →
      decodeTokenResponse ct body = (json_loads body).map TokenData.json)
    ∧ (mimeOf ct ≠ "application/x-www-form-urlencoded" →
      mimeOf ct ≠ "application/json" →
      (decodeTokenResponse ct body
        = .error (.authenticationError
            (ACCESS_TOKEN_URL ++ " sent unsupported content type: " ++ ct)))
      ∧ (lookupFirst args "code" = some code →
         lookupFirst args "state" = some nonce →
         world.tokenEndpoint (tokenPostData self redirect code)
           = .response ct body →
         self.authenticate world nonce redirect args
           = .error (.authenticationError
               (ACCESS_TOKEN_URL ++ " sent unsupported content type: "
                 ++ ct)))) := by
  refine ⟨?_, ?_, ?_⟩
  · intro h
    unfold decodeTokenResponse
    rw [if_pos h]
  · intro h
    unfold decodeTokenResponse
    rw [if_neg (by rw [h]; decide), if_pos h]
  · intro h1 h2
    have hdec : decodeTokenResponse ct body
        = .error (.authenticationError
            (ACCESS_TOKEN_URL ++ " sent unsupported content type: " ++ ct)) := by
      unfold decodeTokenResponse
      rw [if_neg h1, if_neg h2]
    refine ⟨hdec, ?_⟩
    intro hc hs hworld
    rw [authenticate_args_to_exchange self world nonce redirect args code hc hs,
      authenticateExchange_response_eq self world redirect code ct body hworld,
      hdec, except_error_bind]

/-- Witness: the three content types of the dispatch at concrete
inputs — form-decoded, JSON-decoded, and a `text/plain` hard
failure reaching `authenticate`. -/
theorem token_content_type_dispatch_witness :
    (decodeTokenResponse "application/x-www-form-urlencoded"
        "access_token=tok123"
      = .ok (.form [("access_token", "tok123")]))
    ∧ (decodeTokenResponse "application/json"
        "\x7b\"access_token\": \"tok123\"\x7d"
      = .ok (.json (Json.obj [("access_token", Json.str "tok123")])))
    ∧ GitHubOrganization.authenticate ⟨"cid", "sec", "myorg"⟩
        ⟨false, fun _ => .response "text/plain" "access_token=tok123",
         fun _ _ _ => .ioError⟩
        "n0" "https://cb" [("code", "c0"), ("state", "n0")]
      = .error (.authenticationError
          ("https://github.com/login/oauth/access_token" ++
           " sent unsupported content type: text/plain")) := by
  refine ⟨?_, ?_, ?_⟩
  · exact (token_content_type_dispatch ⟨"cid", "sec", "myorg"⟩
      ⟨false, fun _ => .ioError, fun _ _ _ => .ioError⟩ "n0" "https://cb"
      [] "c0" "application/x-www-form-urlencoded" "access_token=tok123").1 rfl
  · exact (token_content_type_dispatch ⟨"cid", "sec", "myorg"⟩
      ⟨false, fun _ => .ioError, fun _ _ _ => .ioError⟩ "n0" "https://cb"
      [] "c0" "application/json"
      "\x7b\"access_token\": \"tok123\"\x7d").2.1 rfl
  · exact ((token_content_type_dispatch ⟨"cid", "sec", "myorg"⟩
      ⟨false, fun _ => .response "text/plain" "access_token=tok123",
       fun _ _ _ => .ioError⟩ "n0" "https://cb"
      [("code", "c0"), ("state", "n0")] "c0" "text/plain"
      "access_token=tok123").2.2 (by decide) (by decide)).2 rfl rfl rfl

/-! ## Shared lemmas: the URL codec round trip -/

/-- Strings whose characters are all ASCII. -/
def asciiStr (s : String) : Bool := s.toList.all (fun c => c.toNat < 128)

theorem asciiStr_mem (s : String) (h : asciiStr s = true) :
    ∀ c ∈ s.toList, c.toNat < 128 := by
  intro c hc
  rw [asciiStr, List.all_eq_true] at h
  simpa using h c hc

theorem hexVal_hexDigitChar (n : Nat) (h : n < 16) :
    hexVal (hexDigitChar n) = some n := by
  interval_cases n <;> rfl

theorem safeChar_hexDigitChar (n : Nat) :
    safeChar (hexDigitChar n) = true := by
  rcases Nat.lt_or_ge n 16 with h | h
  · interval_cases n <;> rfl
  · unfold hexDigitChar
    rw [if_neg (by omega), if_neg (by omega)]
    rfl

/-- The characters the percent-encoder can emit. -/
def queryChar (c : Char) : Bool := safeChar c || c = '+' || c = '%'

theorem queryChar_of_mem_encodeChar (c x : Char) (hx : x ∈ encodeChar c) :
    queryChar x = true := by
  unfold encodeChar at hx
  by_cases hs : safeChar c = true
  · rw [if_pos hs, List.mem_singleton] at hx
    subst hx
    simp [queryChar, hs]
  · rw [if_neg hs] at hx
    by_cases hsp : c = ' '
    · rw [if_pos hsp, List.mem_singleton] at hx
      subst hx
      rfl
    · rw [if_neg hsp, List.mem_flatMap] at hx
      obtain ⟨b, _, hxb⟩ := hx
      simp only [List.mem_cons, List.not_mem_nil, or_false] at hxb
      rcases hxb with rfl | rfl | rfl
      · rfl
      · simp [queryChar, safeChar_hexDigitChar]
      · simp [queryChar, safeChar_hexDigitChar]

theorem sep_not_mem_encodeField (l : List Char) (x : Char)
    (hq : queryChar x = false) : x ∉ encodeField l := by
  intro hmem
  rw [encodeField, List.mem_flatMap] at hmem
  obtain ⟨c, _, hc⟩ := hmem
  rw [queryChar_of_mem_encodeChar c x hc] at hq
  exact absurd hq (by decide)

theorem safeChar_ne_special (c : Char) (hs : safeChar c = true) :
    c ≠ '+' ∧ c ≠ '%' := by
  constructor <;> rintro rfl <;> exact absurd hs (by decide)

theorem percentDecode_cons_plain (c : Char) (rest : List Char)
    (h1 : c ≠ '+') (h2 : c ≠ '%') :
    percentDecode (c :: rest) = utf8Bytes c ++ percentDecode rest := by
  match rest with
  | [] =>
    rw [percentDecode.eq_3 c [] (by intro h l r2 hh; simp at hh),
      if_neg h1, if_neg h2]
  | [x] =>
    rw [percentDecode.eq_3 c [x] (by intro h l r2 hh; simp at hh),
      if_neg h1, if_neg h2]
  | h :: l :: r2 =>
    rw [percentDecode.eq_2, if_neg h1, if_neg h2]

theorem percentDecode_cons_plus (rest : List Char) :
    percentDecode ('+' :: rest) = 32 :: percentDecode rest := by
  match rest with
  | [] =>
    rw [percentDecode.eq_3 '+' [] (by intro h l r2 hh; simp at hh),
      if_pos rfl]
  | [x] =>
    rw [percentDecode.eq_3 '+' [x] (by intro h l r2 hh; simp at hh),
      if_pos rfl]
  | h :: l :: r2 =>
    rw [percentDecode.eq_2, if_pos rfl]

theorem utf8Bytes_ascii (c : Char) (h : c.toNat < 128) :
    utf8Bytes c = [c.toNat] := by
  simp only [utf8Bytes]
  rw [if_pos h]

theorem percentDecode_escape (a b : Nat) (ha : a < 16) (hb : b < 16)
    (rest : List Char) :
    percentDecode ('%' :: hexDigitChar a :: hexDigitChar b :: rest)
      = (16 * a + b) :: percentDecode rest := by
  rw [percentDecode.eq_2, if_neg (by decide), if_pos rfl,
    hexVal_hexDigitChar a ha, hexVal_hexDigitChar b hb]

theorem percentDecode_encodeChar (c : Char) (hc : c.toNat < 128)
    (rest : List Char) :
    percentDecode (encodeChar c ++ rest) = c.toNat :: percentDecode rest := by
  unfold encodeChar
  by_cases hs : safeChar c = true
  · obtain ⟨h1, h2⟩ := safeChar_ne_special c hs
    rw [if_pos hs, List.singleton_append,
      percentDecode_cons_plain c rest h1 h2, utf8Bytes_ascii c hc]
    rfl
  · rw [if_neg hs]
    by_cases hsp : c = ' '
    · subst hsp
      rw [if_pos rfl, List.singleton_append, percentDecode_cons_plus rest]
      norm_num [Char.toNat]
      decide
    · rw [if_neg hsp, utf8Bytes_ascii c hc]
      show percentDecode ('%' :: hexDigitChar (c.toNat / 16)
          :: hexDigitChar (c.toNat % 16) :: rest) = _
      rw [percentDecode_escape (c.toNat / 16) (c.toNat % 16)
        (by omega) (Nat.mod_lt _ (by norm_num)) rest,
        Nat.div_add_mod]

theorem utf8DecodeList_cons_ascii (n : Nat) (h : n < 128) (bs : List Nat) :
    utf8DecodeList (n :: bs) = Char.ofNat n :: utf8DecodeList bs := by
  unfold utf8DecodeList
  rw [utf8DecodeAux.eq_3, if_pos h]

theorem decode_encodeField (l : List Char) (h : ∀ c ∈ l, c.toNat < 128) :
    utf8DecodeList (percentDecode (encodeField l)) = l := by
  induction l with
  | nil => rfl
  | cons c l ih =>
    have hc := h c (List.mem_cons_self c l)
    rw [encodeField, List.flatMap_cons, percentDecode_encodeChar c hc,
      utf8DecodeList_cons_ascii c.toNat hc, Char.ofNat_toNat]
    exact congrArg (List.cons c)
      (ih fun x hx => h x (List.mem_cons_of_mem c hx))

theorem splitFirst_append (sep : Char) (a b : List Char) (ha : sep ∉ a) :
    splitFirst sep (a ++ sep :: b) = (a, some b) := by
  induction a with
  | nil => simp [splitFirst]
  | cons c a ih =>
    rw [List.cons_append]
    simp only [splitFirst]
    rw [if_neg (by rintro rfl; exact ha (List.mem_cons_self _ _)),
      ih (fun hm => ha (List.mem_cons_of_mem _ hm))]

theorem splitOnChar_ne_nil (sep : Char) (l : List Char) :
    splitOnChar sep l ≠ [] := by
  cases l with
  | nil => simp [splitOnChar]
  | cons c cs =>
    simp only [splitOnChar]
    cases h : splitOnChar sep cs with
    | nil => simp
    | cons g gs => by_cases hc : c = sep <;> simp [hc]

theorem splitOnChar_not_mem (sep : Char) (l : List Char) (h : sep ∉ l) :
    splitOnChar sep l = [l] := by
  induction l with
  | nil => rfl
  | cons c cs ih =>
    have hcne : ¬(c = sep) := fun hceq =>
      h (List.mem_cons.mpr (Or.inl hceq.symm))
    rw [splitOnChar.eq_2, ih (fun hm => h (List.mem_cons_of_mem _ hm))]
    show (if c = sep then [] :: cs :: [] else (c :: cs) :: ([] : List (List Char)))
      = [c :: cs]
    rw [if_neg hcne]

theorem splitOnChar_append (sep : Char) (a b : List Char) (ha : sep ∉ a) :
    splitOnChar sep (a ++ sep :: b) = a :: splitOnChar sep b := by
  induction a with
  | nil =>
    rw [List.nil_append, splitOnChar.eq_2]
    cases hb : splitOnChar sep b with
    | nil => exact absurd hb (splitOnChar_ne_nil sep b)
    | cons g gs =>
      show (if sep = sep then ([] : List Char) :: g :: gs
            else (sep :: g) :: gs) = [] :: g :: gs
      rw [if_pos rfl]
  | cons c a ih =>
    have hcne : ¬(c = sep) := fun hceq =>
      ha (List.mem_cons.mpr (Or.inl hceq.symm))
    rw [List.cons_append, splitOnChar.eq_2,
      ih (fun hm => ha (List.mem_cons_of_mem _ hm))]
    show (if c = sep then [] :: a :: splitOnChar sep b
          else (c :: a) :: splitOnChar sep b)
        = (c :: a) :: splitOnChar sep b
    rw [if_neg hcne]

theorem notmem_encodePairChars (p : String × String) (x : Char)
    (hq : queryChar x = false) (hne : x ≠ '=') :
    x ∉ encodePairChars p := by
  unfold encodePairChars
  intro hm
  rw [List.mem_append] at hm
  rcases hm with hm | hm
  · exact sep_not_mem_encodeField _ x hq hm
  · rw [List.mem_cons] at hm
    rcases hm with hm | hm
    · exact hne hm
    · exact sep_not_mem_encodeField _ x hq hm

theorem notmem_urlEncodeChars (x : Char) (hq : queryChar x = false)
    (hne : x ≠ '=') (hamp : x ≠ '&') :
    ∀ l : List (String × String), x ∉ urlEncodeChars l := by
  intro l
  induction l with
  | nil => simp [urlEncodeChars]
  | cons p rest ih =>
    cases rest with
    | nil => exact notmem_encodePairChars p x hq hne
    | cons q rest2 =>
      show x ∉ encodePairChars p ++ '&' :: urlEncodeChars (q :: rest2)
      intro hm
      rw [List.mem_append] at hm
      rcases hm with hm | hm
      · exact notmem_encodePairChars p x hq hne hm
      · rw [List.mem_cons] at hm
        rcases hm with hm | hm
        · exact hamp hm
        · exact ih hm

theorem encodePairChars_ne_nil (p : String × String) :
    encodePairChars p ≠ [] := by
  unfold encodePairChars
  simp

theorem decodePair_encodePair (p : String × String)
    (h1 : asciiStr p.1 = true) (h2 : asciiStr p.2 = true) :
    decodePairChars (encodePairChars p) = p := by
  obtain ⟨k, v⟩ := p
  unfold decodePairChars encodePairChars
  rw [splitFirst_append '=' _ _ (sep_not_mem_encodeField _ '=' (by decide))]
  simp only [Option.getD_some]
  unfold decodeField
  rw [decode_encodeField _ (asciiStr_mem k h1),
    decode_encodeField _ (asciiStr_mem v h2)]
  rfl

theorem url_decode_url_encode (l : List (String × String))
    (h : ∀ p ∈ l, asciiStr p.1 = true ∧ asciiStr p.2 = true) :
    url_decode (url_encode l) = l := by
  induction l with
  | nil => rfl
  | cons p rest ih =>
    obtain ⟨h1, h2⟩ := h p (List.mem_cons_self p rest)
    cases rest with
    | nil =>
      show (((splitOnChar '&' (urlEncodeChars [p])).filter
          (fun f => f ≠ [])).map decodePairChars) = [p]
      rw [show urlEncodeChars [p] = encodePairChars p from rfl,
        splitOnChar_not_mem '&' _
          (notmem_encodePairChars p '&' (by decide) (by decide))]
      rw [List.filter_cons, if_pos (by simpa using encodePairChars_ne_nil p)]
      rw [List.filter_nil, List.map_cons, List.map_nil,
        decodePair_encodePair p h1 h2]
    | cons q rest2 =>
      have hrest : ∀ r ∈ q :: rest2, asciiStr r.1 = true ∧ asciiStr r.2 = true :=
        fun r hr => h r (List.mem_cons_of_mem _ hr)
      show (((splitOnChar '&' (urlEncodeChars (p :: q :: rest2))).filter
          (fun f => f ≠ [])).map decodePairChars) = p :: q :: rest2
      rw [show urlEncodeChars (p :: q :: rest2)
            = encodePairChars p ++ '&' :: urlEncodeChars (q :: rest2) from rfl,
        splitOnChar_append '&' _ _
          (notmem_encodePairChars p '&' (by decide) (by decide))]
      rw [List.filter_cons, if_pos (by simpa using encodePairChars_ne_nil p)]
      rw [List.map_cons, decodePair_encodePair p h1 h2]
      exact congrArg (List.cons p) (ih hrest)

/-! ## Claim C9 -/

/-- C9: `request_authentication` (a pure function in this embedding)
returns the authorize-endpoint URL whose query string decodes back to
exactly the four parameters `client_id` (the configured client id),
`redirect_uri` (the caller-supplied target), `scope` (the configured
scope) and `state` (the caller-supplied nonce) — stated for ASCII
inputs, which is what the round-trip decoding model covers. -/
theorem request_authentication_query_params (self : GitHubOrganization)
    (auth_nonce redirect_url : String)
    (h1 : asciiStr self.client_id = true)
    (h2 : asciiStr auth_nonce = true)
    (h3 : asciiStr redirect_url = true) :
    self.request_authentication auth_nonce redirect_url
      = AUTHORIZE_URL ++ "?"
        ++ url_encode (authParams self auth_nonce redirect_url)
    ∧ queryOf (self.request_authentication auth_nonce redirect_url)
      = some (url_encode (authParams self auth_nonce redirect_url))
    ∧ url_decode (url_encode (authParams self auth_nonce redirect_url))
      = [("client_id", self.client_id),
         ("redirect_uri", redirect_url),
         ("scope", "read:org,admin:public_key"),
         ("state", auth_nonce)] := by
  refine ⟨rfl, ?_, ?_⟩
  · unfold queryOf GitHubOrganization.request_authentication
    have hlist : (AUTHORIZE_URL ++ "?"
          ++ url_encode (authParams self auth_nonce redirect_url)).toList
        = AUTHORIZE_URL.toList ++ '?'
          :: (urlEncodeChars (authParams self auth_nonce redirect_url)) := by
      show ((AUTHORIZE_URL ++ "?")
          ++ url_encode (authParams self auth_nonce redirect_url)).data = _
      rw [String.data_append, String.data_append, List.append_assoc]
      rfl
    rw [hlist, splitFirst_append '?' _ _ (by decide)]
    rfl
  · apply url_decode_url_encode
    intro p hp
    simp only [authParams, List.mem_cons, List.not_mem_nil, or_false] at hp
    rcases hp with rfl | rfl | rfl | rfl
    · exact ⟨rfl, h1⟩
    · exact ⟨rfl, h3⟩
    · exact ⟨rfl, rfl⟩
    · exact ⟨rfl, h2⟩

/-- Witness at concrete inputs exercising a space, `:`/`/` and a `?`
inside the values. -/
theorem request_authentication_query_params_witness :
    queryOf (GitHubOrganization.request_authentication
        ⟨"cid", "sec", "myorg"⟩ "nonce 1" "https://cb/x?y=1")
      = some (url_encode (authParams ⟨"cid", "sec", "myorg"⟩
          "nonce 1" "https://cb/x?y=1"))
    ∧ url_decode (url_encode (authParams ⟨"cid", "sec", "myorg"⟩
        "nonce 1" "https://cb/x?y=1"))
      = [("client_id", "cid"),
         ("redirect_uri", "https://cb/x?y=1"),
         ("scope", "read:org,admin:public_key"),
         ("state", "nonce 1")] :=
  ⟨(request_authentication_query_params ⟨"cid", "sec", "myorg"⟩
      "nonce 1" "https://cb/x?y=1" rfl rfl rfl).2.1,
   (request_authentication_query_params ⟨"cid", "sec", "myorg"⟩
      "nonce 1" "https://cb/x?y=1" rfl rfl rfl).2.2⟩

end Geofront
